import Mathlib

/-!
# The example server examples/server.js

A shallow embedding of the example server: the HTTP request handler, the
connection callback with the three listeners it registers on each socket, and
the part of the socket library the example calls (on, send, and the dispatch of
an inbound event to the listeners registered under its name).

Side effects (console output and packets written to a client) are recorded in
one trace, in the order in which the program performs them.
-/

namespace Server

/-! ## Values and effects -/

/-- A JavaScript value, as far as the example can observe one: the example only
logs the values it receives and never inspects them. An array or an object is
kept as its JSON text, and only whole numbers are represented. The value
ackCallback n is the function the socket
library appends to the arguments of an inbound event that carries the
acknowledgment id n. -/
inductive JsVal where
  | undefined
  | null
  | bool (b : Bool)
  | num (n : Int)
  | str (s : String)
  | json (text : String)
  | ackCallback (id : Nat)
  deriving DecidableEq

/-- The two kinds of packet the socket library writes to a client on behalf of
application code: an event, or the acknowledgment of an inbound event. -/
inductive PacketType where
  | event
  | ack
  deriving DecidableEq

/-- A packet written to the client of the socket whose id is dest. For an
event, data is the event name followed by its arguments. The field id is the
acknowledgment id the packet refers to, if any. -/
structure Packet where
  dest : String
  type : PacketType
  data : List JsVal
  id : Option Nat
  deriving DecidableEq

/-- One observable action of the program: a line on standard output
(console.log), a line on standard error (console.error), or a packet written to
a client. The arguments of a console call are kept as passed. -/
inductive Effect where
  | log (args : List JsVal)
  | error (args : List JsVal)
  | packet (p : Packet)
  deriving DecidableEq

/-! ## The HTTP request handler -/

/-- An incoming HTTP request. -/
structure Request where
  method : String
  url : String
  headers : List (String × String)
  body : String
  deriving DecidableEq

/-- The state of an HTTP response object: the status code written with the
head (none while the head is unwritten), the chunks of body written so far, and
whether the response has been ended. -/
structure Response where
  status : Option Nat
  body : List String
  ended : Bool
  deriving DecidableEq

/-- The response object the HTTP server passes to the request listener. -/
def Response.fresh : Response :=
  { status := none, body := [], ended := false }

/-- Failures of the response API. -/
inductive HttpError where
  | headersSent
  | writeAfterEnd
  deriving DecidableEq

/-- The call res.writeHead(code): writes the head with the given status. It
fails once the head has been written. -/
def Response.writeHead (res : Response) (code : Nat) : Except HttpError Response :=
  if res.status.isSome || res.ended then .error .headersSent
  else .ok { res with status := some code }

/-- The call res.end(data): writes the head with status 200 if no head was
written, appends the last chunk and finishes the response. It fails on a
finished response. -/
def Response.end (res : Response) (data : String) : Except HttpError Response :=
  if res.ended then .error .writeAfterEnd
  else .ok { status := some (res.status.getD 200), body := res.body ++ [data], ended := true }

/-- The function handler of server.js (lines 10 to 13). -/
def handler (_req : Request) (res : Response) : Except HttpError Response := do
  let res ← res.writeHead 200
  res.end "Testing server for http://github.com/wedeploy/gosocketio example."

/-! ## Sockets, listeners and the connection callback -/

/-- What the example reads of a socket object: its id and the headers of the
request that opened it. -/
structure Socket where
  id : String
  headers : JsVal
  deriving DecidableEq

/-- The call socket.send(x) of the socket library: it emits the event named
message, with the single argument x, to the client of this socket. -/
def Socket.send (socket : Socket) (x : JsVal) : Effect :=
  .packet { dest := socket.id, type := .event, data := [.str "message", x], id := none }

/-- The acknowledgment function the socket library builds for an inbound event
with id n: calling it with the given arguments writes an ack packet that refers
to n. No listener of the example calls it. -/
def Socket.ack (socket : Socket) (n : Nat) (args : List JsVal) : Effect :=
  .packet { dest := socket.id, type := .ack, data := args, id := some n }

/-- The three function values the connection callback creates. Each is a
closure over the variable socket of the callback that created it. -/
inductive Listener where
  | onMessgae (socket : Socket)
  | onError (socket : Socket)
  | onDisconnect (socket : Socket)
  deriving DecidableEq

/-- Calling a listener with an argument list. A parameter with no argument is
undefined, and arguments beyond the parameters are dropped.

* onMessgae is the arrow function of lines 18 to 23, with parameter location;
* onError is the arrow function of lines 25 to 27, with parameter err;
* onDisconnect is the arrow function of lines 29 to 31, with no parameter. -/
def Listener.call : Listener → List JsVal → List Effect
  | .onMessgae socket, args =>
    let location := args.headD .undefined
    [ .log [.str "client message!"],
      .log [location],
      socket.send (.str "hi client!") ]
  | .onError _, args =>
    let err := args.headD .undefined
    [ .error [err] ]
  | .onDisconnect socket, _ =>
    [ .log [.str "Disconnecting %s.", .str socket.id] ]

/-- The value a call of a listener returns: none of the three functions has a
return statement, so every call returns undefined. The event emitter drops the
value. -/
def Listener.returnValue : Listener → List JsVal → JsVal
  | .onMessgae _, _ => .undefined
  | .onError _, _ => .undefined
  | .onDisconnect _, _ => .undefined

/-- A connected socket on the server side, with its table of listeners in
registration order. -/
structure Conn where
  socket : Socket
  listeners : List (String × Listener)
  deriving DecidableEq

/-- The call socket.on(name, listener) of the event emitter: the listener is
added after those already registered. -/
def Conn.on (c : Conn) (name : String) (l : Listener) : Conn :=
  { c with listeners := c.listeners ++ [(name, l)] }

/-- Emitting an event on a socket, as the event emitter does: the listeners
registered under exactly this name are called in registration order, each with
the same arguments. -/
def Conn.emit (c : Conn) (name : String) (args : List JsVal) : List Effect :=
  (c.listeners.filter (fun e => e.1 = name)).flatMap (fun e => e.2.call args)

/-- The callback passed to io.on for the event connection (lines 14 to 32),
run on the socket object of a new connection: two console lines, then three
registrations. It returns the socket with its listeners and the effects. -/
def connectionCallback (c : Conn) : Conn × List Effect :=
  let socket := c.socket
  let fx := [ Effect.log [.str "Connecting %s.", .str socket.id],
              Effect.log [socket.headers] ]
  let c := c.on "messgae" (.onMessgae socket)
  let c := c.on "error" (.onError socket)
  let c := c.on "disconnect" (.onDisconnect socket)
  (c, fx)

/-! ## The running server -/

/-- The state of the server process: the connected sockets and the trace of
effects performed so far, oldest first. -/
structure World where
  conns : List Conn
  trace : List Effect
  deriving DecidableEq

/-- The state after the top level of server.js has run (lines 3 to 8): the
server listens, nobody is connected, one line has been logged. -/
def boot : World :=
  { conns := [], trace := [ .log [.str "Listening at http://localhost:3000/"] ] }

/-- What the socket library can hand to the program.

* connection: a client completed the handshake; the library made a socket;
* event: an event packet arrived on the socket with the given id, with a name,
  arguments and possibly an acknowledgment id;
* error: the library reports an error on a socket;
* disconnect: a socket closed, for the given reason. -/
inductive Input where
  | connection (socket : Socket)
  | event (sid : String) (name : String) (args : List JsVal) (ackId : Option Nat)
  | error (sid : String) (err : JsVal)
  | disconnect (sid : String) (reason : JsVal)
  deriving DecidableEq

/-- The connected socket with the given id, if there is one. -/
def World.find (w : World) (sid : String) : Option Conn :=
  w.conns.find? (fun c => c.socket.id = sid)

/-- The arguments the library passes to the listeners of an inbound event: the
arguments of the packet, followed by the acknowledgment function when the
packet carries an id. -/
def eventArgs (args : List JsVal) : Option Nat → List JsVal
  | none => args
  | some n => args ++ [.ackCallback n]

/-- One reaction of the server. Socket ids are unique among connected sockets:
the library never hands over a socket whose id is in use, and such an input is
ignored. Inputs for a socket that is not connected are ignored as well. -/
def step (w : World) : Input → World
  | .connection socket =>
    if (w.find socket.id).isSome then w
    else
      let r := connectionCallback { socket := socket, listeners := [] }
      { conns := w.conns ++ [r.1], trace := w.trace ++ r.2 }
  | .event sid name args ackId =>
    match w.find sid with
    | none => w
    | some c => { w with trace := w.trace ++ c.emit name (eventArgs args ackId) }
  | .error sid err =>
    match w.find sid with
    | none => w
    | some c => { w with trace := w.trace ++ c.emit "error" [err] }
  | .disconnect sid reason =>
    match w.find sid with
    | none => w
    | some c =>
      { conns := w.conns.filter (fun d => d.socket.id ≠ sid),
        trace := w.trace ++ c.emit "disconnect" [reason] }

/-- The server after a sequence of inputs, handled one at a time in arrival
order. -/
def run (w : World) (inputs : List Input) : World :=
  inputs.foldl step w

/-- The packets of a trace, in the order they were written. -/
def packets : List Effect → List Packet
  | [] => []
  | .packet p :: rest => p :: packets rest
  | _ :: rest => packets rest

/-- The packets of a trace written to the socket with the given id. -/
def packetsTo (sid : String) (trace : List Effect) : List Packet :=
  (packets trace).filter (fun p => p.dest = sid)

/-- The reaction of the server to one input: the effects it adds to the
trace. -/
def reaction (w : World) (i : Input) : List Effect :=
  (step w i).trace.drop w.trace.length

/-- The packet that socket.send("hi client!") writes to the client of the
socket with the given id. -/
def hiClient (sid : String) : Packet :=
  { dest := sid, type := .event, data := [.str "message", .str "hi client!"], id := none }

/-- Every connected socket carries exactly the listeners the connection
callback registered on it. -/
def World.Registered (w : World) : Prop :=
  ∀ c ∈ w.conns, c = (connectionCallback { socket := c.socket, listeners := [] }).1

end Server

/-!
# The messaging core described by the specification

The example server contains no room router and no frame codec of its own. The
two models below follow the wording of the specification (data model, component
contracts and the wire format of the external interfaces).
-/

namespace Rooms

/-- Modelled from the spec: the Room of the data model, which the example
server does not contain. A room has a name and a set of member connection
identifiers. -/
structure Room where
  name : String
  members : Finset String
  deriving DecidableEq

/-- Modelled from the spec: the state of the Namespace/Room Router, which the
example server does not contain. It holds the rooms that exist; a room exists
from its first join. -/
structure Router where
  rooms : List Room
  deriving DecidableEq

/-- Modelled from the spec: the router with no room, missing from the source. -/
def Router.empty : Router :=
  { rooms := [] }

/-- Modelled from the spec: the membership of a room, missing from the source.
A room that does not exist has no member. -/
def Router.members (r : Router) (room : String) : Finset String :=
  match r.rooms.find? (fun rm => rm.name = room) with
  | none => ∅
  | some rm => rm.members

/-- Modelled from the spec: the operation join(connectionId, room) of the
Namespace/Room Router, missing from the source. The room is created on the
first join; otherwise the connection identifier is put into the member set of
the room. -/
def Router.join (r : Router) (connectionId room : String) : Router :=
  match r.rooms.find? (fun rm => rm.name = room) with
  | none => { rooms := r.rooms ++ [{ name := room, members := {connectionId} }] }
  | some _ =>
    { rooms := r.rooms.map (fun rm =>
        if rm.name = room then { rm with members := insert connectionId rm.members } else rm) }

end Rooms

namespace Codec

/-- Modelled from the spec: one byte of the wire format. -/
abbrev Byte := Fin 256

/-- Modelled from the spec: the frame types of the data model, missing from the
source. The six named types (PING and PONG counted apart) take the type bytes 0
to 6 in the order the specification lists them; unknown k is the Unknown
variant that preserves the type byte 7 + k of a newer protocol revision. -/
inductive FrameType where
  | connect
  | message
  | ack
  | disconnect
  | error
  | ping
  | pong
  | unknown (k : Fin 249)
  deriving DecidableEq

/-- Modelled from the spec: the Frame of the data model, missing from the
source: type, namespace, optional acknowledgment id, payload bytes. The wire
format keeps the value 0 of the ack id field for a frame without acknowledgment
id, so an acknowledgment id is a positive number. -/
structure Frame where
  type : FrameType
  ns : List Byte
  ackId : Option PNat
  payload : List Byte
  deriving DecidableEq

/-- Modelled from the spec: the decoding failure of the Frame Codec. -/
inductive DecodeError where
  | malformed
  deriving DecidableEq

/-- Modelled from the spec: results of decode can be compared. -/
instance decEqResult {α : Type} [DecidableEq α] : DecidableEq (Except DecodeError α)
  | .ok a, .ok b => if h : a = b then isTrue (by rw [h]) else isFalse (by intro e; cases e; exact h rfl)
  | .error a, .error b => if h : a = b then isTrue (by rw [h]) else isFalse (by intro e; cases e; exact h rfl)
  | .ok _, .error _ => isFalse (by intro e; cases e)
  | .error _, .ok _ => isFalse (by intro e; cases e)

/-- Modelled from the spec: the type byte of a frame type (field type:1 byte of
the wire format), missing from the source. -/
def typeByte : FrameType → Byte
  | .connect => 0
  | .message => 1
  | .ack => 2
  | .disconnect => 3
  | .error => 4
  | .ping => 5
  | .pong => 6
  | .unknown k => ⟨7 + k.val, by omega⟩

/-- Modelled from the spec: the frame type of a type byte, missing from the
source. A byte that names no known type is kept in the Unknown variant. -/
def typeOfByte (b : Byte) : FrameType :=
  if h : b.val < 7 then
    match b.val with
    | 0 => .connect
    | 1 => .message
    | 2 => .ack
    | 3 => .disconnect
    | 4 => .error
    | 5 => .ping
    | _ => .pong
  else .unknown ⟨b.val - 7, by omega⟩

/-- Modelled from the spec: the varint fields of the wire format, missing from
the source: base 128, low group first, the high bit of a byte set when another
byte follows. -/
def encodeVarint (n : Nat) : List Byte :=
  if h : n < 128 then [⟨n, by omega⟩]
  else ⟨128 + n % 128, by omega⟩ :: encodeVarint (n / 128)
termination_by n
decreasing_by omega

/-- Modelled from the spec: reading one varint from the front of a byte
sequence, missing from the source. It fails on a truncated varint. -/
def decodeVarint : List Byte → Except DecodeError (Nat × List Byte)
  | [] => .error .malformed
  | b :: rest =>
    if b.val < 128 then .ok (b.val, rest)
    else
      match decodeVarint rest with
      | .error e => .error e
      | .ok (m, rest') => .ok (b.val - 128 + 128 * m, rest')

/-- Modelled from the spec: reading a field of known length, missing from the
source. It fails on truncated input. -/
def takeBytes (n : Nat) (bs : List Byte) : Except DecodeError (List Byte × List Byte) :=
  if bs.length < n then .error .malformed else .ok (bs.take n, bs.drop n)

/-- Modelled from the spec: the number written in the ack id field of the wire
format, missing from the source: the acknowledgment id, and 0 for none. -/
def ackField : Option PNat → Nat
  | none => 0
  | some n => n.val

/-- Modelled from the spec: the acknowledgment id read from the ack id field of
the wire format, missing from the source: 0 is read as none. -/
def ackOfField (n : Nat) : Option PNat :=
  if h : n = 0 then none else some ⟨n, Nat.pos_of_ne_zero h⟩

/-- Modelled from the spec: encode of the Frame Codec, missing from the source,
after the wire format: type byte, namespace length, namespace bytes, ack id
with 0 for none, payload length, payload bytes. -/
def encode (f : Frame) : List Byte :=
  [typeByte f.type]
    ++ encodeVarint f.ns.length ++ f.ns
    ++ encodeVarint (ackField f.ackId)
    ++ encodeVarint f.payload.length ++ f.payload

/-- Modelled from the spec: reading one frame from the front of a byte stream,
missing from the source; the bytes after the frame are returned with it. An ack
id field of 0 is read as no acknowledgment id. -/
def decodeStream : List Byte → Except DecodeError (Frame × List Byte)
  | [] => .error .malformed
  | t :: bs => do
    let (nsLen, bs) ← decodeVarint bs
    let (ns, bs) ← takeBytes nsLen bs
    let (ack, bs) ← decodeVarint bs
    let (payloadLen, bs) ← decodeVarint bs
    let (payload, bs) ← takeBytes payloadLen bs
    .ok ({ type := typeOfByte t, ns := ns,
           ackId := ackOfField ack,
           payload := payload }, bs)

/-- Modelled from the spec: decode of the Frame Codec, missing from the source:
the frame at the front of the bytes, or Malformed. -/
def decode (bs : List Byte) : Except DecodeError Frame :=
  match decodeStream bs with
  | .error e => .error e
  | .ok (f, _) => .ok f

end Codec

/-! # Properties of the example server -/

namespace Server

/-! ## Auxiliary facts -/

theorem packets_append (xs ys : List Effect) :
    packets (xs ++ ys) = packets xs ++ packets ys := by
  induction xs with
  | nil => rfl
  | cons x xs ih => cases x <;> simp [packets, ih]

theorem find_some_id {w : World} {sid : String} {c : Conn} (h : w.find sid = some c) :
    c.socket.id = sid := by
  have := List.find?_some h
  simpa using this

theorem find_some_mem {w : World} {sid : String} {c : Conn} (h : w.find sid = some c) :
    c ∈ w.conns :=
  List.mem_of_find?_eq_some h

theorem registered_boot : boot.Registered := by
  intro c hc
  simp [boot] at hc

theorem step_event (w : World) (sid name : String) (args : List JsVal) (ackId : Option Nat) :
    step w (.event sid name args ackId) =
      match w.find sid with
      | none => w
      | some c => { w with trace := w.trace ++ c.emit name (eventArgs args ackId) } := rfl

theorem step_error (w : World) (sid : String) (err : JsVal) :
    step w (.error sid err) =
      match w.find sid with
      | none => w
      | some c => { w with trace := w.trace ++ c.emit "error" [err] } := rfl

theorem step_disconnect (w : World) (sid : String) (reason : JsVal) :
    step w (.disconnect sid reason) =
      match w.find sid with
      | none => w
      | some c =>
        { conns := w.conns.filter (fun d => d.socket.id ≠ sid),
          trace := w.trace ++ c.emit "disconnect" [reason] } := rfl

theorem step_connection (w : World) (socket : Socket) :
    step w (.connection socket) =
      if (w.find socket.id).isSome then w
      else
        { conns := w.conns ++ [(connectionCallback { socket := socket, listeners := [] }).1],
          trace := w.trace ++ (connectionCallback { socket := socket, listeners := [] }).2 } := rfl

theorem registered_step {w : World} (hw : w.Registered) (i : Input) :
    (step w i).Registered := by
  cases i with
  | connection socket =>
    rw [step_connection]
    split
    · exact hw
    · intro c hc
      simp only [List.mem_append, List.mem_singleton] at hc
      rcases hc with hc | hc
      · exact hw c hc
      · subst hc; rfl
  | event sid name args ackId =>
    rw [step_event]
    split
    · exact hw
    · exact hw
  | error sid err =>
    rw [step_error]
    split
    · exact hw
    · exact hw
  | disconnect sid reason =>
    rw [step_disconnect]
    split
    · exact hw
    · intro c hc
      exact hw c (List.mem_of_mem_filter hc)

theorem registered_run {w : World} (hw : w.Registered) (inputs : List Input) :
    (run w inputs).Registered := by
  induction inputs generalizing w with
  | nil => exact hw
  | cons i rest ih => exact ih (registered_step hw i)

/-- What emitting an event does on a socket that carries the listeners of the
connection callback. -/
theorem emit_registered (socket : Socket) (name : String) (args : List JsVal) :
    (connectionCallback { socket := socket, listeners := [] }).1.emit name args =
      if name = "messgae" then
        [ .log [.str "client message!"], .log [args.headD .undefined],
          .packet (hiClient socket.id) ]
      else if name = "error" then [ .error [args.headD .undefined] ]
      else if name = "disconnect" then [ .log [.str "Disconnecting %s.", .str socket.id] ]
      else [] := by
  by_cases h1 : name = "messgae"
  · subst h1
    simp [connectionCallback, Conn.on, Conn.emit, List.filter, Listener.call, Socket.send,
      hiClient]
  · by_cases h2 : name = "error"
    · subst h2
      simp [connectionCallback, Conn.on, Conn.emit, List.filter, Listener.call]
    · by_cases h3 : name = "disconnect"
      · subst h3
        simp [connectionCallback, Conn.on, Conn.emit, List.filter, Listener.call]
      · have e1 : ¬ ("messgae" = name) := fun h => h1 h.symm
        have e2 : ¬ ("error" = name) := fun h => h2 h.symm
        have e3 : ¬ ("disconnect" = name) := fun h => h3 h.symm
        simp [connectionCallback, Conn.on, Conn.emit, List.filter, h1, h2, h3, e1, e2, e3]

/-- The effects of emitting an event on a connected socket of a server whose
sockets carry the listeners of the connection callback. -/
theorem emit_of_find {w : World} (hw : w.Registered) {sid : String} {c : Conn}
    (h : w.find sid = some c) (name : String) (args : List JsVal) :
    c.emit name args =
      if name = "messgae" then
        [ .log [.str "client message!"], .log [args.headD .undefined],
          .packet (hiClient sid) ]
      else if name = "error" then [ .error [args.headD .undefined] ]
      else if name = "disconnect" then [ .log [.str "Disconnecting %s.", .str sid] ]
      else [] := by
  have hc := hw c (find_some_mem h)
  have hid := find_some_id h
  rw [hc, emit_registered, hid]

theorem reaction_event {w : World} {sid : String} {c : Conn} (h : w.find sid = some c)
    (name : String) (args : List JsVal) (ackId : Option Nat) :
    reaction w (.event sid name args ackId) = c.emit name (eventArgs args ackId) := by
  simp [reaction, step_event, h]

theorem reaction_error {w : World} {sid : String} {c : Conn} (h : w.find sid = some c)
    (err : JsVal) :
    reaction w (.error sid err) = c.emit "error" [err] := by
  simp [reaction, step_error, h]

theorem reaction_disconnect {w : World} {sid : String} {c : Conn} (h : w.find sid = some c)
    (reason : JsVal) :
    reaction w (.disconnect sid reason) = c.emit "disconnect" [reason] := by
  simp [reaction, step_disconnect, h]

theorem reaction_event_absent {w : World} {sid : String} (h : w.find sid = none)
    (name : String) (args : List JsVal) (ackId : Option Nat) :
    reaction w (.event sid name args ackId) = [] := by
  simp [reaction, step_event, h]

theorem reaction_error_absent {w : World} {sid : String} (h : w.find sid = none)
    (err : JsVal) :
    reaction w (.error sid err) = [] := by
  simp [reaction, step_error, h]

theorem reaction_disconnect_absent {w : World} {sid : String} (h : w.find sid = none)
    (reason : JsVal) :
    reaction w (.disconnect sid reason) = [] := by
  simp [reaction, step_disconnect, h]

/-- The reaction to an inbound event named messgae on a connected socket. -/
theorem reaction_messgae {w : World} (hw : w.Registered) {sid : String}
    (h : (w.find sid).isSome) (args : List JsVal) (ackId : Option Nat) :
    reaction w (.event sid "messgae" args ackId) =
      [ .log [.str "client message!"], .log [(eventArgs args ackId).headD .undefined],
        .packet (hiClient sid) ] := by
  obtain ⟨c, hc⟩ := Option.isSome_iff_exists.mp h
  rw [reaction_event hc, emit_of_find hw hc]
  simp

/-- The packets of the reaction to an inbound event of any name. -/
theorem packets_reaction_event {w : World} (hw : w.Registered) (sid name : String)
    (args : List JsVal) (ackId : Option Nat) :
    packets (reaction w (.event sid name args ackId)) =
      if name = "messgae" ∧ (w.find sid).isSome then [hiClient sid] else [] := by
  cases h : w.find sid with
  | none => simp [reaction_event_absent h, packets]
  | some c =>
    rw [reaction_event h, emit_of_find hw h]
    by_cases h1 : name = "messgae"
    · simp [h1, packets]
    · by_cases h2 : name = "error"
      · simp [h1, h2, packets]
      · by_cases h3 : name = "disconnect"
        · simp [h1, h2, h3, packets]
        · simp [h1, h2, h3, packets]

theorem step_event_conns (w : World) (sid name : String) (args : List JsVal)
    (ackId : Option Nat) :
    (step w (.event sid name args ackId)).conns = w.conns := by
  rw [step_event]
  split <;> rfl

theorem step_error_conns (w : World) (sid : String) (err : JsVal) :
    (step w (.error sid err)).conns = w.conns := by
  rw [step_error]
  split <;> rfl

theorem step_trace (w : World) (i : Input) :
    (step w i).trace = w.trace ++ reaction w i := by
  have key : ∀ fx : List Effect, w.trace ++ fx = w.trace ++ (w.trace ++ fx).drop w.trace.length := by
    intro fx
    simp
  unfold reaction
  cases i with
  | connection socket =>
    rw [step_connection]
    split
    · simp
    · exact key _
  | event sid name args ackId =>
    rw [step_event]
    split
    · simp
    · exact key _
  | error sid err =>
    rw [step_error]
    split
    · simp
    · exact key _
  | disconnect sid reason =>
    rw [step_disconnect]
    split
    · simp
    · exact key _

theorem find_step_event (w : World) (sid name : String) (args : List JsVal)
    (ackId : Option Nat) (other : String) :
    (step w (.event sid name args ackId)).find other = w.find other := by
  unfold World.find
  rw [step_event_conns]

theorem find_step_error (w : World) (sid : String) (err : JsVal) (other : String) :
    (step w (.error sid err)).find other = w.find other := by
  unfold World.find
  rw [step_error_conns]

theorem find_filter_ne (conns : List Conn) (sid other : String) (h : other ≠ sid) :
    (conns.filter (fun d => d.socket.id ≠ sid)).find? (fun c => c.socket.id = other) =
      conns.find? (fun c => c.socket.id = other) := by
  induction conns with
  | nil => rfl
  | cons d rest ih =>
    rw [List.filter_cons]
    by_cases hd : d.socket.id = sid
    · have hne : ¬ d.socket.id = other := fun e => h (e.symm.trans hd)
      rw [if_neg (by simp [hd]), List.find?_cons_of_neg _ (by simp [hne]), ih]
    · rw [if_pos (by simp [hd])]
      by_cases ho : d.socket.id = other
      · rw [List.find?_cons_of_pos _ (by simp [ho]), List.find?_cons_of_pos _ (by simp [ho])]
      · rw [List.find?_cons_of_neg _ (by simp [ho]), List.find?_cons_of_neg _ (by simp [ho]), ih]

theorem find_step_disconnect (w : World) (sid : String) (reason : JsVal) (other : String)
    (h : other ≠ sid) :
    (step w (.disconnect sid reason)).find other = w.find other := by
  rw [step_disconnect]
  split
  · rfl
  · exact find_filter_ne w.conns sid other h

/-- The trace after a run of inbound events named messgae on one connected
socket. -/
theorem run_messgae_trace (sid : String) (evs : List (List JsVal × Option Nat)) :
    ∀ w : World, w.Registered → (w.find sid).isSome →
      (run w (evs.map (fun e => Input.event sid "messgae" e.1 e.2))).trace =
        w.trace ++ evs.flatMap (fun e =>
          [ Effect.log [.str "client message!"],
            Effect.log [(eventArgs e.1 e.2).headD .undefined],
            Effect.packet (hiClient sid) ]) := by
  induction evs with
  | nil => intro w _ _; simp [run]
  | cons e rest ih =>
    intro w hw h
    have hw1 := registered_step hw (Input.event sid "messgae" e.1 e.2)
    have h1 : ((step w (Input.event sid "messgae" e.1 e.2)).find sid).isSome := by
      rw [find_step_event]; exact h
    have := ih _ hw1 h1
    simp only [run, List.map_cons, List.foldl_cons] at this ⊢
    rw [this, step_trace, reaction_messgae hw h]
    simp [List.flatMap_cons]

theorem packets_flatMap_messgae (sid : String) (evs : List (List JsVal × Option Nat)) :
    packets (evs.flatMap (fun e =>
          [ Effect.log [.str "client message!"],
            Effect.log [(eventArgs e.1 e.2).headD .undefined],
            Effect.packet (hiClient sid) ])) = List.replicate evs.length (hiClient sid) := by
  induction evs with
  | nil => rfl
  | cons e rest ih =>
    simp only [List.flatMap_cons, packets_append, ih, List.length_cons, List.replicate_succ]
    simp [packets]

/-- Every packet a server run has written is an event packet named message that
carries no acknowledgment id. -/
theorem packets_run_boot (inputs : List Input) :
    ∀ p ∈ packets (run boot inputs).trace, p.type = .event ∧ p.id = none := by
  suffices H : ∀ w : World, w.Registered →
      (∀ p ∈ packets w.trace, p.type = .event ∧ p.id = none) →
      ∀ p ∈ packets (run w inputs).trace, p.type = .event ∧ p.id = none by
    apply H boot registered_boot
    intro p hp
    simp [boot, packets] at hp
  induction inputs with
  | nil => intro w _ h; exact h
  | cons i rest ih =>
    intro w hw h
    apply ih (step w i) (registered_step hw i)
    intro p hp
    rw [step_trace, packets_append, List.mem_append] at hp
    rcases hp with hp | hp
    · exact h p hp
    · cases i with
      | connection socket =>
        have : packets (reaction w (.connection socket)) = [] := by
          unfold reaction
          rw [step_connection]
          split
          · simp [packets]
          · simp [connectionCallback, packets]
        rw [this] at hp
        simp at hp
      | event sid name args ackId =>
        rw [packets_reaction_event hw] at hp
        split at hp
        · simp only [List.mem_singleton] at hp
          subst hp
          exact ⟨rfl, rfl⟩
        · simp at hp
      | error sid err =>
        cases hf : w.find sid with
        | none => rw [reaction_error_absent hf] at hp; simp [packets] at hp
        | some c =>
          rw [reaction_error hf, emit_of_find hw hf] at hp
          simp [packets] at hp
      | disconnect sid reason =>
        cases hf : w.find sid with
        | none => rw [reaction_disconnect_absent hf] at hp; simp [packets] at hp
        | some c =>
          rw [reaction_disconnect hf, emit_of_find hw hf] at hp
          simp [packets] at hp

/-! ## Main results about the example server -/

/-- C1: on every connected socket, after any history of inputs, an inbound
event named messgae with any arguments (and with or without an acknowledgment
id) makes the server write exactly one packet: the event named message whose
only argument is the fixed string "hi client!", addressed to that socket. The
content of the reply does not depend on the payload. -/
theorem messgae_reply_is_hi_client (inputs : List Input) (sid : String)
    (args : List JsVal) (ackId : Option Nat)
    (h : ((run boot inputs).find sid).isSome) :
    packets (reaction (run boot inputs) (.event sid "messgae" args ackId)) =
      [{ dest := sid, type := .event, data := [.str "message", .str "hi client!"],
         id := none }] := by
  rw [packets_reaction_event (registered_run registered_boot inputs)]
  simp [h, hiClient]

theorem messgae_reply_is_hi_client_witness :
    ((run boot [.connection ⟨"A", .json "\x7b\x7d"⟩, .event "A" "messgae" [.num 1] none]).find
        "A").isSome ∧
    packets (reaction
        (run boot [.connection ⟨"A", .json "\x7b\x7d"⟩, .event "A" "messgae" [.num 1] none])
        (.event "A" "messgae" [.str "hello", .num 2] (some 4))) =
      [{ dest := "A", type := .event, data := [.str "message", .str "hi client!"],
         id := none }] :=
  ⟨by decide, messgae_reply_is_hi_client _ "A" _ _ (by decide)⟩

/-- C2: when an event named messgae arrives on a connected socket a, the server
writes exactly one packet, it is addressed to a, and nothing is written to any
other socket b: the packets written to b are the same before and after. -/
theorem messgae_reply_only_to_sender (inputs : List Input) (a b : String)
    (args : List JsVal) (ackId : Option Nat)
    (ha : ((run boot inputs).find a).isSome) (hab : a ≠ b) :
    (packets (reaction (run boot inputs) (.event a "messgae" args ackId))).length = 1 ∧
    (∀ p ∈ packets (reaction (run boot inputs) (.event a "messgae" args ackId)),
      p.dest = a) ∧
    packetsTo b (reaction (run boot inputs) (.event a "messgae" args ackId)) = [] ∧
    packetsTo b (step (run boot inputs) (.event a "messgae" args ackId)).trace =
      packetsTo b (run boot inputs).trace := by
  have hp := packets_reaction_event (registered_run registered_boot inputs) a "messgae"
    args ackId
  simp only [ha, and_self, if_true] at hp
  have hb : packetsTo b (reaction (run boot inputs) (.event a "messgae" args ackId)) = [] := by
    simp [packetsTo, hp, hiClient, hab]
  refine ⟨by rw [hp]; rfl, ?_, hb, ?_⟩
  · intro p hpm
    rw [hp] at hpm
    simp only [List.mem_singleton] at hpm
    subst hpm
    rfl
  · have hs := step_trace (run boot inputs) (.event a "messgae" args ackId)
    unfold packetsTo at hb ⊢
    rw [hs, packets_append, List.filter_append, hb, List.append_nil]

theorem messgae_reply_only_to_sender_witness :
    ((run boot [.connection ⟨"A", .json "\x7b\x7d"⟩, .connection ⟨"B", .null⟩]).find "A").isSome ∧
    "A" ≠ "B" ∧
    (packets (reaction (run boot [.connection ⟨"A", .json "\x7b\x7d"⟩, .connection ⟨"B", .null⟩])
      (.event "A" "messgae" [.str "x"] none))).length = 1 ∧
    packetsTo "B" (reaction
      (run boot [.connection ⟨"A", .json "\x7b\x7d"⟩, .connection ⟨"B", .null⟩])
      (.event "A" "messgae" [.str "x"] none)) = [] :=
  have h := messgae_reply_only_to_sender
    [.connection ⟨"A", .json "\x7b\x7d"⟩, .connection ⟨"B", .null⟩] "A" "B" [.str "x"] none
    (by decide) (by decide)
  ⟨by decide, by decide, h.1, h.2.2.1⟩

/-- C3, as stated, fails: in the scenario of the specification (acknowledgment
id 7, payload "hi") sent under the event name messgae, the only packet the
server writes is an event packet without acknowledgment id, so no packet of
type ack and no packet referring to id 7 is written; the listener itself
returns undefined, not "hi client!"; under the event name echo of the scenario
the server writes nothing at all. -/
theorem ack_scenario_gets_no_ack :
    Listener.returnValue (.onMessgae ⟨"c1", .json "\x7b\x7d"⟩)
        (eventArgs [.str "hi"] (some 7)) = .undefined ∧
    packets (reaction (run boot [.connection ⟨"c1", .json "\x7b\x7d"⟩])
        (.event "c1" "messgae" [.str "hi"] (some 7))) =
      [{ dest := "c1", type := .event, data := [.str "message", .str "hi client!"],
         id := none }] ∧
    (¬ ∃ p ∈ packets (reaction (run boot [.connection ⟨"c1", .json "\x7b\x7d"⟩])
        (.event "c1" "messgae" [.str "hi"] (some 7))), p.type = .ack ∨ p.id = some 7) ∧
    packets (reaction (run boot [.connection ⟨"c1", .json "\x7b\x7d"⟩])
        (.event "c1" "echo" [.str "hi"] (some 7))) = [] := by
  decide

/-- C3, amended: when an inbound event named messgae carries an acknowledgment
id n, the reply of the server is the same for every n: one event packet named
message that carries "hi client!" and no acknowledgment id. Whatever the name
of the inbound event, no packet of the reply is an ack or refers to an id. -/
theorem reply_never_acknowledges (inputs : List Input) (sid name : String)
    (args : List JsVal) (n : Nat)
    (h : ((run boot inputs).find sid).isSome) :
    packets (reaction (run boot inputs) (.event sid "messgae" args (some n))) =
      [{ dest := sid, type := .event, data := [.str "message", .str "hi client!"],
         id := none }] ∧
    ∀ p ∈ packets (reaction (run boot inputs) (.event sid name args (some n))),
      p.type = .event ∧ p.id = none := by
  have hw := registered_run registered_boot inputs
  constructor
  · rw [packets_reaction_event hw]
    simp [h, hiClient]
  · intro p hp
    rw [packets_reaction_event hw] at hp
    split at hp
    · simp only [List.mem_singleton] at hp
      subst hp
      exact ⟨rfl, rfl⟩
    · simp at hp

theorem reply_never_acknowledges_witness :
    ((run boot [.connection ⟨"c1", .json "\x7b\x7d"⟩]).find "c1").isSome ∧
    packets (reaction (run boot [.connection ⟨"c1", .json "\x7b\x7d"⟩])
        (.event "c1" "messgae" [.str "hi"] (some 7))) =
      [{ dest := "c1", type := .event, data := [.str "message", .str "hi client!"],
         id := none }] :=
  ⟨by decide,
    (reply_never_acknowledges [.connection ⟨"c1", .json "\x7b\x7d"⟩] "c1" "echo" [.str "hi"] 7
      (by decide)).1⟩

/-- C4: no fault injection. When a finite sequence of events named messgae
arrives on one connected socket, the trace grows, event by event and in arrival
order, by the two console lines of the event (the second one shows the first
argument of that event) followed by its reply; so the server writes exactly as
many replies as events arrived, and nothing else is written. -/
theorem every_messgae_gets_one_reply (inputs : List Input) (sid : String)
    (evs : List (List JsVal × Option Nat))
    (h : ((run boot inputs).find sid).isSome) :
    (run (run boot inputs) (evs.map (fun e => Input.event sid "messgae" e.1 e.2))).trace =
      (run boot inputs).trace ++ evs.flatMap (fun e =>
        [ Effect.log [.str "client message!"],
          Effect.log [(eventArgs e.1 e.2).headD .undefined],
          Effect.packet { dest := sid, type := .event,
                          data := [.str "message", .str "hi client!"], id := none } ]) ∧
    packets (run (run boot inputs)
        (evs.map (fun e => Input.event sid "messgae" e.1 e.2))).trace =
      packets (run boot inputs).trace ++
        List.replicate evs.length
          { dest := sid, type := .event, data := [.str "message", .str "hi client!"],
            id := none } := by
  have ht := run_messgae_trace sid evs (run boot inputs)
    (registered_run registered_boot inputs) h
  refine ⟨ht, ?_⟩
  rw [ht, packets_append, packets_flatMap_messgae]
  rfl

theorem every_messgae_gets_one_reply_witness :
    ((run boot [.connection ⟨"A", .json "\x7b\x7d"⟩]).find "A").isSome ∧
    packets (run (run boot [.connection ⟨"A", .json "\x7b\x7d"⟩])
        ([([JsVal.str "one"], none), ([JsVal.str "two"], some 1), ([], none)].map
          (fun e => Input.event "A" "messgae" e.1 e.2))).trace =
      packets (run boot [.connection ⟨"A", .json "\x7b\x7d"⟩]).trace ++
        List.replicate
          [([JsVal.str "one"], (none : Option Nat)), ([JsVal.str "two"], some 1),
            ([], none)].length
          { dest := "A", type := .event, data := [.str "message", .str "hi client!"],
            id := none } :=
  ⟨by decide,
    (every_messgae_gets_one_reply [.connection ⟨"A", .json "\x7b\x7d"⟩] "A"
      [([JsVal.str "one"], none), ([JsVal.str "two"], some 1), ([], none)] (by decide)).2⟩

/-- C5: event names are compared as plain strings. On a connected socket an
inbound event makes the server write a packet exactly when its name is messgae;
for every other name, the correctly spelled message among them, nothing is
written back. -/
theorem only_messgae_is_answered (inputs : List Input) (sid name : String)
    (args : List JsVal) (ackId : Option Nat)
    (h : ((run boot inputs).find sid).isSome) :
    (packets (reaction (run boot inputs) (.event sid name args ackId)) ≠ [] ↔
      name = "messgae") ∧
    (name ≠ "messgae" →
      packets (reaction (run boot inputs) (.event sid name args ackId)) = []) ∧
    packets (reaction (run boot inputs) (.event sid "message" args ackId)) = [] := by
  have hw := registered_run registered_boot inputs
  refine ⟨?_, ?_, ?_⟩
  · rw [packets_reaction_event hw]
    by_cases hn : name = "messgae"
    · simp [hn, h]
    · simp [hn]
  · intro hn
    rw [packets_reaction_event hw]
    simp [hn]
  · rw [packets_reaction_event hw]
    simp

theorem only_messgae_is_answered_witness :
    ((run boot [.connection ⟨"A", .json "\x7b\x7d"⟩]).find "A").isSome ∧
    "message" ≠ "messgae" ∧
    packets (reaction (run boot [.connection ⟨"A", .json "\x7b\x7d"⟩])
      (.event "A" "message" [.str "hi"] none)) = [] :=
  ⟨by decide, by decide,
    (only_messgae_is_answered [.connection ⟨"A", .json "\x7b\x7d"⟩] "A" "message" [.str "hi"]
      none (by decide)).2.1 (by decide)⟩

/-- C8: an error reported on a socket, the closing of a socket, and an inbound
event named error or disconnect make the server write no packet to any socket:
the listeners only log. An error leaves all connected sockets and their
listener tables as they were; a disconnect leaves every other socket connected
with its listener table as it was. -/
theorem error_and_disconnect_only_log (inputs : List Input) (sid : String)
    (err reason : JsVal) (args : List JsVal) (ackId : Option Nat) :
    packets (reaction (run boot inputs) (.error sid err)) = [] ∧
    packets (reaction (run boot inputs) (.disconnect sid reason)) = [] ∧
    packets (reaction (run boot inputs) (.event sid "error" args ackId)) = [] ∧
    packets (reaction (run boot inputs) (.event sid "disconnect" args ackId)) = [] ∧
    (step (run boot inputs) (.error sid err)).conns = (run boot inputs).conns ∧
    (step (run boot inputs) (.event sid "error" args ackId)).conns =
      (run boot inputs).conns ∧
    (step (run boot inputs) (.event sid "disconnect" args ackId)).conns =
      (run boot inputs).conns ∧
    (step (run boot inputs) (.disconnect sid reason)).conns =
      (run boot inputs).conns.filter (fun c => c.socket.id ≠ sid) ∧
    ∀ other : String, other ≠ sid →
      (step (run boot inputs) (.disconnect sid reason)).find other =
        (run boot inputs).find other := by
  have hw := registered_run registered_boot inputs
  refine ⟨?_, ?_, ?_, ?_, step_error_conns _ _ _, step_event_conns _ _ _ _ _,
    step_event_conns _ _ _ _ _, ?_, fun other ho => find_step_disconnect _ _ _ _ ho⟩
  · cases hf : (run boot inputs).find sid with
    | none => rw [reaction_error_absent hf]; rfl
    | some c => rw [reaction_error hf, emit_of_find hw hf]; simp [packets]
  · cases hf : (run boot inputs).find sid with
    | none => rw [reaction_disconnect_absent hf]; rfl
    | some c => rw [reaction_disconnect hf, emit_of_find hw hf]; simp [packets]
  · rw [packets_reaction_event hw]; simp
  · rw [packets_reaction_event hw]; simp
  · rw [step_disconnect]
    cases hf : (run boot inputs).find sid with
    | some c => rfl
    | none =>
      show (run boot inputs).conns = _
      symm
      rw [List.filter_eq_self]
      intro c hc
      have := List.find?_eq_none.mp hf c hc
      simpa using this

theorem error_and_disconnect_only_log_witness :
    "B" ≠ "A" ∧
    (step (run boot [.connection ⟨"A", .json "\x7b\x7d"⟩, .connection ⟨"B", .null⟩])
        (.disconnect "A" (.str "transport close"))).find "B" =
      (run boot [.connection ⟨"A", .json "\x7b\x7d"⟩, .connection ⟨"B", .null⟩]).find "B" :=
  ⟨by decide,
    (error_and_disconnect_only_log [.connection ⟨"A", .json "\x7b\x7d"⟩, .connection ⟨"B", .null⟩]
      "A" .null (.str "transport close") [] none).2.2.2.2.2.2.2.2 "B" (by decide)⟩

/-- C9: the HTTP request handler does not depend on the request. Run on the
response object of a new request, it succeeds for every request, and the
response is then finished with status 200 and, as its whole body, the single
chunk "Testing server for http://github.com/wedeploy/gosocketio example.". On
any response object, two requests give the same result. -/
theorem handler_is_constant (req : Request) :
    handler req Response.fresh =
      .ok { status := some 200,
            body := ["Testing server for http://github.com/wedeploy/gosocketio example."],
            ended := true } ∧
    ∀ (other : Request) (res : Response), handler req res = handler other res :=
  ⟨rfl, fun _ _ => rfl⟩

end Server

/-! # Properties of the modelled core -/

namespace Rooms

/-- What join does to one room. -/
theorem find_map_join (rooms : List Room) (connectionId room : String) :
    (rooms.map (fun rm =>
        if rm.name = room then { rm with members := insert connectionId rm.members }
        else rm)).find? (fun rm => rm.name = room) =
      (rooms.find? (fun rm => rm.name = room)).map (fun rm =>
        { rm with members := insert connectionId rm.members }) := by
  induction rooms with
  | nil => rfl
  | cons rm rest ih =>
    by_cases h : rm.name = room
    · simp [List.find?, h]
    · simp only [List.map_cons, h, if_false]
      rw [List.find?_cons_of_neg _ (by simp [h]), List.find?_cons_of_neg _ (by simp [h]), ih]

/-- The membership of a room after a join: the connection is put into the set
of members. -/
theorem members_join (r : Router) (connectionId room : String) :
    (r.join connectionId room).members room = insert connectionId (r.members room) := by
  unfold Router.join Router.members
  cases h : r.rooms.find? (fun rm => rm.name = room) with
  | none =>
    simp only
    rw [List.find?_append, h]
    simp
  | some rm =>
    simp only
    rw [find_map_join, h]
    rfl

theorem join_join (r : Router) (connectionId room : String) :
    (r.join connectionId room).join connectionId room = r.join connectionId room := by
  cases h : r.rooms.find? (fun rm => rm.name = room) with
  | none =>
    have h1 : r.join connectionId room =
        { rooms := r.rooms ++ [{ name := room, members := {connectionId} }] } := by
      unfold Router.join
      rw [h]
    have h2 : (r.rooms ++ [({ name := room, members := {connectionId} } : Room)]).find?
        (fun rm => rm.name = room) = some { name := room, members := {connectionId} } := by
      rw [List.find?_append, h]
      simp
    rw [h1]
    unfold Router.join
    rw [h2]
    simp only [List.map_append, List.map_cons, List.map_nil, if_true]
    congr 2
    · have hall := List.find?_eq_none.mp h
      conv_rhs => rw [← List.map_id r.rooms]
      apply List.map_congr_left
      intro rm hrm
      have := hall rm hrm
      simp only [decide_eq_true_eq] at this
      simp [this]
    · simp
  | some rm =>
    have h1 : r.join connectionId room =
        { rooms := r.rooms.map (fun rm =>
            if rm.name = room then { rm with members := insert connectionId rm.members }
            else rm) } := by
      unfold Router.join
      rw [h]
    rw [h1]
    unfold Router.join
    rw [find_map_join, h]
    simp only [Option.map_some', List.map_map]
    congr 1
    apply List.map_congr_left
    intro x _
    by_cases hx : x.name = room
    · simp [hx]
    · simp [hx]

/-- C7: join is idempotent. Joining a room a second time gives back the same
router, so the membership of the room is unchanged; a join is a total function
and cannot fail. After a join the members of the room are the former members
together with the connection, so joining twice a room that did not contain the
connection adds one member, and joining twice a room of an empty router yields
a membership of size 1. -/
theorem join_is_idempotent (r : Router) (connectionId room : String) :
    (r.join connectionId room).join connectionId room = r.join connectionId room ∧
    ((r.join connectionId room).join connectionId room).members room =
      (r.join connectionId room).members room ∧
    (connectionId ∉ r.members room →
      (((r.join connectionId room).join connectionId room).members room).card =
        (r.members room).card + 1) ∧
    (((Router.empty.join connectionId room).join connectionId room).members room).card = 1 := by
  refine ⟨join_join r connectionId room, by rw [join_join], ?_, ?_⟩
  · intro hc
    rw [join_join, members_join, Finset.card_insert_of_not_mem hc]
  · rw [join_join, members_join]
    rfl

theorem join_is_idempotent_witness :
    "c2" ∉ (Router.empty.join "c1" "lobby").members "lobby" ∧
    ((((Router.empty.join "c1" "lobby").join "c2" "lobby").join "c2" "lobby").members
      "lobby").card = ((Router.empty.join "c1" "lobby").members "lobby").card + 1 :=
  ⟨by decide, (join_is_idempotent (Router.empty.join "c1" "lobby") "c2" "lobby").2.2.1
    (by decide)⟩

end Rooms

namespace Codec

theorem typeOfByte_typeByte (t : FrameType) : typeOfByte (typeByte t) = t := by
  cases t with
  | unknown k =>
    have hk : ¬ (7 + k.val < 7) := by omega
    unfold typeOfByte typeByte
    simp only [hk, dite_false]
    congr 1
    apply Fin.ext
    simp
  | _ => rfl

/-- Reading back a varint that is followed by arbitrary bytes. -/
theorem decodeVarint_encodeVarint (n : Nat) :
    ∀ rest : List Byte, decodeVarint (encodeVarint n ++ rest) = .ok (n, rest) := by
  induction n using Nat.strong_induction_on with
  | _ n ih =>
    intro rest
    rw [encodeVarint]
    by_cases h : n < 128
    · simp [h, decodeVarint]
    · have hlt : n / 128 < n := by omega
      have hnot : ¬ (128 + n % 128 < 128) := by omega
      simp only [h, dite_false, List.cons_append, decodeVarint, hnot, if_false, ih _ hlt]
      have : 128 + n % 128 - 128 + 128 * (n / 128) = n := by omega
      rw [this]

theorem takeBytes_append (xs rest : List Byte) :
    takeBytes xs.length (xs ++ rest) = .ok (xs, rest) := by
  simp [takeBytes]

theorem ackOfField_ackField (a : Option PNat) : ackOfField (ackField a) = a := by
  cases a with
  | none => rfl
  | some n =>
    have hn : ¬ (n.val = 0) := Nat.pos_iff_ne_zero.mp n.pos
    simp only [ackField, ackOfField, hn, dite_false]
    rfl

/-- The frame read back from an encoded frame that is followed by arbitrary
bytes: every field is recovered and the bytes that follow are left unread. -/
theorem decodeStream_encode (f : Frame) (rest : List Byte) :
    decodeStream (encode f ++ rest) = .ok (f, rest) := by
  have e : encode f ++ rest =
      typeByte f.type :: (encodeVarint f.ns.length ++ (f.ns ++
        (encodeVarint (ackField f.ackId) ++ (encodeVarint f.payload.length ++
          (f.payload ++ rest))))) := by
    simp [encode]
  rw [e]
  simp only [decodeStream, decodeVarint_encodeVarint, takeBytes_append, bind, Except.bind,
    typeOfByte_typeByte, ackOfField_ackField]

/-- C6: round trip of the Frame Codec. For every frame, of any type (the
Unknown variant included), with any namespace, with or without acknowledgment
id and with any payload, decoding the encoded frame succeeds and gives the
frame back; the same holds when other bytes follow the encoded frame, and these
bytes are left unread. -/
theorem decode_encode_roundtrip (f : Frame) (rest : List Byte) :
    decode (encode f) = .ok f ∧ decodeStream (encode f ++ rest) = .ok (f, rest) := by
  have h := decodeStream_encode f []
  rw [List.append_nil] at h
  refine ⟨?_, decodeStream_encode f rest⟩
  simp only [decode, h]

end Codec
